import Mathlib

/-!
# Verification of the ereb telegraf input plugin (`ereb.go`)

The repository's single source file contains two concatenated revisions of
the plugin.  Following the specification, the later revision (the second
`package ereb_telegraf` block: `Gather`, `gatherStatus`, `gatherTasks`,
`getJson` with the 30s/30s timeouts, `hostname`/`task_tag` tags and the
`last_errors_count` derivation) is the canonical program; it is the one
embedded here.  All line references below are into that revision.

JSON floating-point payloads (`next_run`, `duration_avg`) are only carried
through unchanged by the program, never computed with; they are modelled as
rationals.  Go `int64` payloads are modelled as `Int`.
-/

namespace Ereb

/-! ## Go standard-library string helpers used by the program -/

/-- One decimal digit step; `none` propagates a non-digit character.
Models the digit loop of Go `strconv.ParseInt` (base 10). -/
def digitsToNat (cs : List Char) : Option Nat :=
  if cs.isEmpty then none
  else cs.foldl
    (fun acc c =>
      match acc with
      | none => none
      | some n => if c.isDigit then some (n * 10 + (c.toNat - 48)) else none)
    (some 0)

/-- Go `int` is 64-bit here; `strconv.ParseInt` clamps on range error. -/
def int64Max : Int := 2 ^ 63 - 1

def int64Min : Int := -(2 ^ 63)

/-- The mathematical value of a syntactically valid base-10 integer string
(optional single leading sign, then one or more ASCII digits), `none` on a
syntax error.  Models the syntax accepted by Go `strconv.Atoi`. -/
def goParseInt10 (s : String) : Option Int :=
  match s.data with
  | [] => none
  | '-' :: rest => (digitsToNat rest).map (fun n => -(n : Int))
  | '+' :: rest => (digitsToNat rest).map (fun n => (n : Int))
  | cs => (digitsToNat cs).map (fun n => (n : Int))

/-- Go `strconv.Atoi` with its error discarded, as the program does
(`intExitCode, _ := strconv.Atoi(exitCode)`): a syntax error yields 0, a
range error yields the clamped 64-bit value. -/
def goAtoi (s : String) : Int :=
  match goParseInt10 s with
  | none => 0
  | some n => max int64Min (min n int64Max)

/-- Go `strings.HasPrefix s pre`. -/
def goHasPrefix (s pre : String) : Bool :=
  s.data.take pre.data.length == pre.data

/-- Go `strings.HasSuffix s suf`. -/
def goHasSuffix (s suf : String) : Bool :=
  s.data.reverse.take suf.data.length == suf.data.reverse

/-- Go `strings.TrimRight s cutset`: removes all trailing characters that
belong to `cutset`. -/
def goTrimRight (s cutset : String) : String :=
  String.mk ((s.data.reverse.dropWhile (fun c => cutset.data.contains c)).reverse)

/-! ## The exit-code scan of `gatherTasks` (ereb.go lines 401-423) -/

/-- One iteration of the `for _, exitCode := range exitCodes` loop body of
`gatherTasks`: `"None"` entries are skipped, a positive parsed value
increments `lastErrorsCount`, a zero parsed value resets it, anything else
leaves it unchanged. -/
def erebStep (lastErrorsCount : Nat) (exitCode : String) : Nat :=
  if exitCode ≠ "None" then
    let intExitCode := goAtoi exitCode
    if intExitCode > 0 then lastErrorsCount + 1
    else if intExitCode = 0 then 0
    else lastErrorsCount
  else lastErrorsCount

/-- The full scan over the exit-code history, oldest first, starting at 0. -/
def lastErrorsCount (exitCodes : List String) : Nat :=
  exitCodes.foldl erebStep 0

/-- Fields `last_exit_code` and `last_errors_count` exactly as `gatherTasks`
derives them (lines 399-423): for an empty history the code emits the
sentinel `"-1"` and leaves the counter at its initial 0; otherwise it emits
the last history entry and the scanned counter. -/
def taskDerived (exitCodes : List String) : String × Nat :=
  if exitCodes.length = 0 then ("-1", 0)
  else (exitCodes.getLastD "-1", lastErrorsCount exitCodes)

/-! Spec-side scans, written from the claims' words, for comparison with
`lastErrorsCount`. -/

/-- The scan as claim C1 words it: skip `"None"`; a numeric entry with a
nonzero value increments the counter; a value of exactly zero resets it. -/
def specScanNonzeroIncrements (exitCodes : List String) : Nat :=
  exitCodes.foldl
    (fun counter entry =>
      if entry = "None" then counter
      else if goAtoi entry ≠ 0 then counter + 1
      else 0)
    0

/-- One step of the amended scan: skip `"None"`; a negative parsed value
leaves the counter unchanged; an exactly-zero parsed value resets it; a
strictly positive parsed value increments it. -/
def amendedStep (counter : Nat) (entry : String) : Nat :=
  if entry = "None" then counter
  else if goAtoi entry < 0 then counter
  else if goAtoi entry = 0 then 0
  else counter + 1

/-- The amended scan over the whole history. -/
def specScanPositiveIncrements (exitCodes : List String) : Nat :=
  exitCodes.foldl amendedStep 0

example : goAtoi "2" = 2 := by decide
example : goAtoi "-1" = -1 := by decide
example : goAtoi "abc" = 0 := by decide
example : goAtoi "None" = 0 := by decide
example : lastErrorsCount ["None", "1", "None", "2"] = 2 := by decide
example : lastErrorsCount ["1", "0", "2", "3"] = 2 := by decide
example : lastErrorsCount ["-1"] = 0 := by decide
example : specScanNonzeroIncrements ["-1"] = 1 := by decide

/-! ## Endpoint normalization in `Gather` (ereb.go lines 309-325) -/

/-- The endpoint set `Gather` actually fans out over: default to
`"http://localhost:8888"` when no servers are configured, keep only entries
with the `"http"` prefix, and `TrimRight` a trailing `"/"` from kept entries
that have one. -/
def gatherEndpoints (servers : List String) : List String :=
  let servers := if servers.length = 0 then servers ++ ["http://localhost:8888"] else servers
  servers.filterMap
    (fun endpoint =>
      if goHasPrefix endpoint "http" then
        some (if goHasSuffix endpoint "/" then goTrimRight endpoint "/" else endpoint)
      else none)

example : gatherEndpoints [] = ["http://localhost:8888"] := by decide
example : gatherEndpoints ["http://host:8888/"] = ["http://host:8888"] := by decide
example : gatherEndpoints ["host:8888"] = [] := by decide

/-! ## The JSON documents the remote ereb server produces (ereb.go lines 244-282) -/

/-- One entry of the status document's `next_tasks` list. -/
structure NextTask where
  cmd : String
  cronSchedule : String
  description : String
  enabled : Bool
  group : String
  name : String
  taskId : String
  timeout : String
  tryMoreOnError : Bool
deriving DecidableEq, Repr

/-- The `/status` document (`ErebStatus`). -/
structure ErebStatus where
  nextRun : Rat
  nextTasks : List NextTask
  plannedTaskRunUuids : List String
  state : String
deriving DecidableEq, Repr

/-- The Go zero value of `ErebStatus`, the state of the decode target when
the response body fails to decode. -/
def ErebStatus.zero : ErebStatus :=
  { nextRun := 0, nextTasks := [], plannedTaskRunUuids := [], state := "" }

/-- The `stats` object of one task. -/
structure TaskStats where
  durationAvg : Rat
  durationMax : Int
  durationMin : Int
  error : Int
  exitCodes : List String
  success : Int
  taskId : String
deriving DecidableEq, Repr

/-- One entry of the `/tasks` document (`ErebTasks` elements). -/
structure ErebTask where
  cmd : String
  cronSchedule : String
  description : String
  enabled : Bool
  group : String
  name : String
  stats : TaskStats
  taskId : String
  timeout : String
  tryMoreOnError : Bool
deriving DecidableEq, Repr

/-- The `/tasks` document (`ErebTasks`); its Go zero value is the nil slice. -/
abbrev ErebTasks : Type := List ErebTask

/-! ## Metric records handed to the telegraf accumulator -/

/-- One value stored in an `AddFields` field map. -/
inductive FieldValue where
  | str (s : String)
  | int (n : Int)
  | boolean (b : Bool)
  | float (q : Rat)
deriving DecidableEq, Repr

/-- One `acc.AddFields(measurement, fields, tags, now)` call (the timestamp
`now` carries no information the claims speak about and is omitted). -/
structure Metric where
  measurement : String
  tags : List (String × String)
  fields : List (String × FieldValue)
deriving DecidableEq, Repr

/-- Field lookup in a metric record by field name. -/
def fieldOf (m : Metric) (key : String) : Option FieldValue :=
  m.fields.lookup key

/-! ## `net/url` host extraction

`gatherStatus` and `gatherTasks` tag each record with `u.Host` where
`u, err = url.Parse(serverAddr)`.  For the http(s) server addresses that
reach this point (their request URL already parsed inside `getJson`), the
parse succeeds and its `err` is nil, so the trailing `return err` of both
gather functions returns nil; the parse is modelled as total. -/

/-- Drops everything through the first `"://"`, `none` when absent. -/
def afterSchemeSep : List Char → Option (List Char)
  | [] => none
  | ':' :: '/' :: '/' :: rest => some rest
  | _ :: rest => afterSchemeSep rest

/-- Models `url.Parse(s).Host`: the authority component up to the next `/`, with
any `user:password@` userinfo stripped. -/
def urlHost (s : String) : String :=
  let rest :=
    match afterSchemeSep s.data with
    | some r => r
    | none => []
  let authority := rest.takeWhile (fun c => c ≠ '/')
  let host :=
    if authority.contains '@' then (authority.reverse.takeWhile (fun c => c ≠ '@')).reverse
    else authority
  String.mk host

example : urlHost "http://user:pw@host:8888" = "host:8888" := by decide
example : urlHost "http://localhost:8888/x" = "localhost:8888" := by decide

/-! ## `getJson` (ereb.go lines 450-486)

The network is modelled explicitly: a `FetchOutcome α` records what one GET
of a given URL does when the decode target has shape `α`.  `url.Parse`
failing, `client.Do` failing (which also covers the unchecked
`http.NewRequest` error: a nil request makes `client.Do` fail), the status
code, and whether the body decodes as `α` are the four observable steps of
`getJson`. -/

/-- The three error returns `getJson` can produce (the `fmt.Errorf` texts at
lines 462, 473 and 477). -/
inductive GetJsonError where
  | parseError (requestUrl : String)
  | connectionError (requestUrl : String)
  | httpStatusError (requestUrl : String) (statusCode : Nat)
deriving DecidableEq, Repr

/-- A received HTTP response: its status code and the result of decoding its
body as JSON into shape `α` (`none` = decode failure). -/
structure HttpResponse (α : Type) where
  statusCode : Nat
  decoded : Option α
deriving DecidableEq, Repr

/-- What one GET request observes: whether `url.Parse` accepts the request
URL, and the response (`none` = `client.Do` returned an error). -/
structure FetchOutcome (α : Type) where
  urlParses : Bool
  response : Option (HttpResponse α)
deriving DecidableEq, Repr

/-- Models `getJson(requestUrl, target)`: error on parse failure, connection
failure, or a status code other than 200; otherwise success, where a body
that fails to decode is swallowed (`json.NewDecoder(...).Decode(target)`'s
error is discarded at line 483) and the target keeps its zero value. -/
def getJson {α : Type} (requestUrl : String) (w : FetchOutcome α) (target : α) :
    Except GetJsonError α :=
  if w.urlParses = false then Except.error (GetJsonError.parseError requestUrl)
  else
    match w.response with
    | none => Except.error (GetJsonError.connectionError requestUrl)
    | some res =>
      if res.statusCode ≠ 200 then
        Except.error (GetJsonError.httpStatusError requestUrl res.statusCode)
      else
        Except.ok
          (match res.decoded with
           | some v => v
           | none => target)

/-- The network as the two gather functions see it: for every request URL,
the outcome of a GET decoded as a status document, and the outcome of a GET
decoded as a task list. -/
structure World where
  statusFetch : String → FetchOutcome ErebStatus
  tasksFetch : String → FetchOutcome ErebTasks

/-! ## `gatherStatus` (ereb.go lines 349-376) -/

/-- The fields map built by `gatherStatus`: `running` is the integer 1 when
`state == "running"` and 0 otherwise, `tasks_queue_length` is
`len(NextTasks)`, `next_run_in` is `NextRun` unchanged. -/
def statusFields (st : ErebStatus) : List (String × FieldValue) :=
  let is_running : Int := if st.state = "running" then 1 else 0
  [("running", FieldValue.int is_running),
   ("tasks_queue_length", FieldValue.int st.nextTasks.length),
   ("next_run_in", FieldValue.float st.nextRun)]

/-- Models `gatherStatus`: fetches `serverAddr + "/status"`, returns the fetch
error if any, otherwise emits one `ereb_status` record tagged with the
server's host and returns nil (the trailing `return err` is the nil result
of `url.Parse(serverAddr)`, see `urlHost`).  The returned list holds the
`AddFields` calls made. -/
def gatherStatus (g : World) (serverAddr : String) :
    Except GetJsonError (List Metric) :=
  match getJson (serverAddr ++ "/status") (g.statusFetch (serverAddr ++ "/status"))
      ErebStatus.zero with
  | Except.error e => Except.error e
  | Except.ok erebStatus =>
    Except.ok
      [{ measurement := "ereb_status",
         tags := [("hostname", urlHost serverAddr)],
         fields := statusFields erebStatus }]

/-! ## `gatherTasks` (ereb.go lines 379-446) -/

/-- The fields map built for one task by `gatherTasks` (lines 429-440). -/
def taskFields (task : ErebTask) : List (String × FieldValue) :=
  let derived := taskDerived task.stats.exitCodes
  let taskTimeout := goAtoi task.timeout
  [("task_name", FieldValue.str task.name),
   ("enabled", FieldValue.boolean task.enabled),
   ("success_count", FieldValue.int task.stats.success),
   ("errors_count", FieldValue.int task.stats.error),
   ("avg_duration", FieldValue.float task.stats.durationAvg),
   ("max_duration", FieldValue.int task.stats.durationMax),
   ("min_duration", FieldValue.int task.stats.durationMin),
   ("timeout", FieldValue.int taskTimeout),
   ("last_exit_code", FieldValue.str derived.1),
   ("last_errors_count", FieldValue.int derived.2)]

/-- The one `ereb_tasks` record `gatherTasks` emits for one task. -/
def taskMetric (serverAddr : String) (task : ErebTask) : Metric :=
  { measurement := "ereb_tasks",
    tags := [("hostname", urlHost serverAddr), ("task_tag", task.name)],
    fields := taskFields task }

/-- Models `gatherTasks`: fetches `serverAddr + "/tasks"`, returns the fetch error
if any, otherwise emits one `ereb_tasks` record per task in the fetched
list and returns nil. -/
def gatherTasks (g : World) (serverAddr : String) :
    Except GetJsonError (List Metric) :=
  match getJson (serverAddr ++ "/tasks") (g.tasksFetch (serverAddr ++ "/tasks"))
      ([] : ErebTasks) with
  | Except.error e => Except.error e
  | Except.ok erebTasks =>
    Except.ok (erebTasks.map (taskMetric serverAddr))

/-! ## The coordinator `Gather` (ereb.go lines 309-347) -/

/-- The two entries of `gatherFunctions = []gatherFunc{gatherStatus,
gatherTasks}`. -/
inductive GatherKind where
  | status
  | tasks
deriving DecidableEq, Repr

/-- Runs one (endpoint, gather function) unit of work. -/
def runUnit (g : World) (serverAddr : String) : GatherKind → Except GetJsonError (List Metric)
  | GatherKind.status => gatherStatus g serverAddr
  | GatherKind.tasks => gatherTasks g serverAddr

/-- The units `Gather` launches: one goroutine per (endpoint, gather
function) pair, in the order of the two nested loops. -/
def gatherUnits (endpoints : List String) : List (String × GatherKind) :=
  endpoints.flatMap (fun server => [(server, GatherKind.status), (server, GatherKind.tasks)])

/-- What one `Gather` call produces: the `AddFields` records and `AddError`
errors accumulated across all units, and `Gather`'s own return value. -/
structure GatherResult where
  metrics : List Metric
  errors : List GetJsonError
  returned : Option GetJsonError
deriving Repr

/-- Models `Gather`: normalizes the server list, launches one unit per (endpoint,
gather function) pair, waits on the `sync.WaitGroup` for all of them, and
returns nil; each unit's error (if any) goes to `acc.AddError`, each unit's
records to `acc.AddFields`.  The WaitGroup barrier is what justifies
collecting every unit's outcome into the result. -/
def Gather (servers : List String) (g : World) : GatherResult :=
  { metrics :=
      ((gatherUnits (gatherEndpoints servers)).map (fun u => runUnit g u.1 u.2)).flatMap
        (fun r => match r with | Except.ok ms => ms | Except.error _ => []),
    errors :=
      ((gatherUnits (gatherEndpoints servers)).map (fun u => runUnit g u.1 u.2)).filterMap
        (fun r => match r with | Except.ok _ => none | Except.error e => some e),
    returned := none }

/-- Whether two worlds return the same fetch outcome to a given
(endpoint, gather function) unit. -/
def fetchAgrees (g g' : World) : String × GatherKind → Prop
  | (s, GatherKind.status) =>
    g.statusFetch (s ++ "/status") = g'.statusFetch (s ++ "/status")
  | (s, GatherKind.tasks) =>
    g.tasksFetch (s ++ "/tasks") = g'.tasksFetch (s ++ "/tasks")

/-! ## Helper lemmas -/

theorem erebStep_eq_amendedStep (c : Nat) (e : String) :
    erebStep c e = amendedStep c e := by
  by_cases h : e = "None"
  · simp [erebStep, amendedStep, h]
  · rcases lt_trichotomy (goAtoi e) 0 with hlt | heq | hgt
    · have h1 : ¬ (goAtoi e > 0) := by omega
      have h2 : goAtoi e ≠ 0 := by omega
      simp [erebStep, amendedStep, h, h1, h2, hlt]
    · simp [erebStep, amendedStep, h, heq]
    · have h1 : ¬ (goAtoi e < 0) := by omega
      have h2 : goAtoi e ≠ 0 := by omega
      simp [erebStep, amendedStep, h, h1, h2, hgt]

theorem foldl_erebStep_eq_amended (l : List String) :
    ∀ c : Nat, l.foldl erebStep c = l.foldl amendedStep c := by
  induction l with
  | nil => intro c; rfl
  | cons e t ih =>
    intro c
    simp only [List.foldl_cons, erebStep_eq_amendedStep, ih]

theorem erebStep_resets_on_zero (c : Nat) : erebStep c "0" = 0 := by
  have h0 : goAtoi "0" = 0 := by decide
  have hne : ("0" : String) ≠ "None" := by decide
  simp [erebStep, h0, hne]

/-! ## Claims -/

/-- C1 (counterexample): the claim's scan, in which every numeric entry with
a nonzero value increments the counter, disagrees with the program on the
history `["-1"]`: the code leaves the counter at 0 for a negative parsed
value, while the claimed scan increments it to 1. -/
theorem lastErrorsCount_nonzero_scan_counterexample :
    ¬ (lastErrorsCount ["-1"] = specScanNonzeroIncrements ["-1"]) := by decide

/-- C1 (amended): `last_errors_count` is the left-to-right scan from 0 in
which `"None"` entries are skipped, entries parsing to a strictly positive
value increment the counter, entries parsing to exactly zero reset it, and
entries parsing to a negative value leave it unchanged; in particular the
spec's example history gives 2 and any history ending in the zero-exit entry
`"0"` gives 0. -/
theorem lastErrorsCount_amended_scan :
    (∀ exitCodes : List String,
      lastErrorsCount exitCodes = specScanPositiveIncrements exitCodes)
    ∧ lastErrorsCount ["None", "1", "None", "2"] = 2
    ∧ (∀ exitCodes : List String, lastErrorsCount (exitCodes ++ ["0"]) = 0) := by
  refine ⟨?_, by decide, ?_⟩
  · intro exitCodes
    exact foldl_erebStep_eq_amended exitCodes 0
  · intro exitCodes
    simp [lastErrorsCount, List.foldl_append, erebStep_resets_on_zero]

/-- C2: `last_exit_code` is the last entry of a non-empty exit-code history,
and for an empty history it is the sentinel `"-1"` with
`last_errors_count` 0. -/
theorem taskDerived_last_exit_code (exitCodes : List String) :
    ((h : exitCodes ≠ []) → (taskDerived exitCodes).1 = exitCodes.getLast h)
    ∧ (exitCodes = [] → taskDerived exitCodes = ("-1", 0)) := by
  constructor
  · intro h
    have hlen : exitCodes.length ≠ 0 := by
      simpa [List.length_eq_zero] using h
    simp only [taskDerived, hlen, if_neg hlen]
    rw [List.getLastD_eq_getLast?, List.getLast?_eq_getLast _ h]
    rfl
  · intro h
    subst h
    rfl

/-- C2 witness. -/
theorem taskDerived_last_exit_code_witness :
    (taskDerived ["0", "7"]).1 = ["0", "7"].getLast (by decide)
    ∧ taskDerived [] = ("-1", 0) :=
  ⟨(taskDerived_last_exit_code ["0", "7"]).1 (by decide),
   (taskDerived_last_exit_code []).2 rfl⟩

/-- C10: a non-`"None"` entry increments the counter exactly when its parse
is strictly positive, resets it exactly when its parse is zero (so also for
every non-numeric entry, whose failed parse yields zero), and leaves it
unchanged when its parse is negative. -/
theorem erebStep_cases (cnt : Nat) (e : String) (h : e ≠ "None") :
    (0 < goAtoi e → erebStep cnt e = cnt + 1)
    ∧ (goAtoi e = 0 → erebStep cnt e = 0)
    ∧ (goAtoi e < 0 → erebStep cnt e = cnt)
    ∧ (goParseInt10 e = none → erebStep cnt e = 0)
    ∧ lastErrorsCount = fun exitCodes => exitCodes.foldl erebStep 0 := by
  refine ⟨fun hp => ?_, fun hz => ?_, fun hn => ?_, fun hf => ?_, rfl⟩
  · simp [erebStep, h, hp]
  · simp [erebStep, hz, h]
  · have h1 : ¬ (goAtoi e > 0) := by omega
    have h2 : goAtoi e ≠ 0 := by omega
    simp [erebStep, h, h1, h2]
  · have hz : goAtoi e = 0 := by simp [goAtoi, hf]
    simp [erebStep, hz, h]

/-- C10 witness. -/
theorem erebStep_cases_witness :
    ("2" : String) ≠ "None"
    ∧ ((0 < goAtoi "2" → erebStep 3 "2" = 4)
        ∧ (goAtoi "2" = 0 → erebStep 3 "2" = 0)
        ∧ (goAtoi "2" < 0 → erebStep 3 "2" = 3)
        ∧ (goParseInt10 "2" = none → erebStep 3 "2" = 0)
        ∧ lastErrorsCount = fun exitCodes => exitCodes.foldl erebStep 0) :=
  ⟨by decide, erebStep_cases 3 "2" (by decide)⟩

/-- Sample values used by witnesses. -/
def sampleNextTask : NextTask :=
  { cmd := "echo hi", cronSchedule := "* * * * *", description := "", enabled := true,
    group := "g", name := "t1", taskId := "1", timeout := "30", tryMoreOnError := false }

def sampleStatusDoc : ErebStatus :=
  { nextRun := 5, nextTasks := [sampleNextTask], plannedTaskRunUuids := [], state := "running" }

def sampleTask : ErebTask :=
  { cmd := "echo hi", cronSchedule := "* * * * *", description := "", enabled := true,
    group := "g", name := "t1",
    stats := { durationAvg := 1, durationMax := 2, durationMin := 0, error := 3,
               exitCodes := ["0", "1"], success := 7, taskId := "1" },
    taskId := "1", timeout := "30", tryMoreOnError := false }

/-- C5: `getJson` returns an error exactly when the URL fails to parse, the
request produces no response, or the response status is not exactly 200; a
non-200 status (2xx included) yields specifically the HTTP-status error, and
either gather function propagates the error without emitting any record. -/
theorem getJson_error_iff {α : Type} (requestUrl : String) (w : FetchOutcome α)
    (target : α) :
    ((∃ e, getJson requestUrl w target = Except.error e) ↔
      (w.urlParses = false ∨ w.response = none ∨
        ∃ res, w.response = some res ∧ res.statusCode ≠ 200))
    ∧ (∀ res, w.response = some res → w.urlParses = true → res.statusCode ≠ 200 →
        getJson requestUrl w target =
          Except.error (GetJsonError.httpStatusError requestUrl res.statusCode))
    ∧ (∀ (g : World) (s : String) (e : GetJsonError),
        getJson (s ++ "/status") (g.statusFetch (s ++ "/status")) ErebStatus.zero =
            Except.error e →
          gatherStatus g s = Except.error e)
    ∧ (∀ (g : World) (s : String) (e : GetJsonError),
        getJson (s ++ "/tasks") (g.tasksFetch (s ++ "/tasks")) ([] : ErebTasks) =
            Except.error e →
          gatherTasks g s = Except.error e) := by
  refine ⟨?_, ?_, ?_, ?_⟩
  · obtain ⟨up, resp⟩ := w
    cases up
    · simp [getJson]
    · cases resp with
      | none => simp [getJson]
      | some res =>
        by_cases hs : res.statusCode = 200
        · simp [getJson, hs]
        · simp [getJson, hs]
  · intro res hres hup hs
    simp [getJson, hup, hres, hs]
  · intro g s e he
    simp [gatherStatus, he]
  · intro g s e he
    simp [gatherTasks, he]

/-- C5 witness: at status code 204 (a 2xx other than 200) `getJson` fails
with the HTTP-status error. -/
theorem getJson_error_iff_witness :
    (∃ e, getJson "http://a/status" (⟨true, some ⟨204, none⟩⟩ : FetchOutcome ErebStatus)
        ErebStatus.zero = Except.error e)
    ∧ getJson "http://a/status" (⟨true, some ⟨204, none⟩⟩ : FetchOutcome ErebStatus)
        ErebStatus.zero =
      Except.error (GetJsonError.httpStatusError "http://a/status" 204) :=
  ⟨(getJson_error_iff "http://a/status" ⟨true, some ⟨204, none⟩⟩ ErebStatus.zero).1.mpr
     (Or.inr (Or.inr ⟨⟨204, none⟩, rfl, by decide⟩)),
   (getJson_error_iff "http://a/status" ⟨true, some ⟨204, none⟩⟩ ErebStatus.zero).2.1
     ⟨204, none⟩ rfl rfl (by decide)⟩

/-- C6: a 200 response whose body fails to decode is still a success and
leaves the target at the zero value it was passed with. -/
theorem getJson_decode_failure_swallowed {α : Type} (requestUrl : String) (target : α)
    (w : FetchOutcome α) (hp : w.urlParses = true)
    (hr : w.response = some ⟨200, none⟩) :
    getJson requestUrl w target = Except.ok target := by
  simp [getJson, hp, hr]

/-- C6 witness. -/
theorem getJson_decode_failure_swallowed_witness :
    getJson "http://a/status" (⟨true, some ⟨200, none⟩⟩ : FetchOutcome ErebStatus)
      ErebStatus.zero = Except.ok ErebStatus.zero :=
  getJson_decode_failure_swallowed "http://a/status" ErebStatus.zero
    ⟨true, some ⟨200, none⟩⟩ rfl rfl

theorem gatherStatus_congr (g g' : World) (s : String)
    (h : g.statusFetch (s ++ "/status") = g'.statusFetch (s ++ "/status")) :
    gatherStatus g s = gatherStatus g' s := by
  simp only [gatherStatus, h]

theorem gatherTasks_congr (g g' : World) (s : String)
    (h : g.tasksFetch (s ++ "/tasks") = g'.tasksFetch (s ++ "/tasks")) :
    gatherTasks g s = gatherTasks g' s := by
  simp only [gatherTasks, h]

/-- C7: `gatherTasks` reads the network only at `serverAddr ++ "/tasks"` —
two worlds that agree there (and may disagree everywhere else, in particular
at `serverAddr ++ "/status"`) produce identical results — and on a
successful fetch its records are exactly one per task of that document. -/
theorem gatherTasks_uses_tasks_url (serverAddr : String) (g g' : World)
    (h : g.tasksFetch (serverAddr ++ "/tasks") = g'.tasksFetch (serverAddr ++ "/tasks")) :
    gatherTasks g serverAddr = gatherTasks g' serverAddr
    ∧ (∀ ts : ErebTasks,
        g.tasksFetch (serverAddr ++ "/tasks") = ⟨true, some ⟨200, some ts⟩⟩ →
        gatherTasks g serverAddr = Except.ok (ts.map (taskMetric serverAddr))) := by
  constructor
  · exact gatherTasks_congr g g' serverAddr h
  · intro ts hts
    simp [gatherTasks, hts, getJson]

/-- C7 witness: a world whose `/status` document differs arbitrarily leaves
the task records unchanged. -/
theorem gatherTasks_uses_tasks_url_witness :
    gatherTasks
        { statusFetch := fun _ => ⟨true, none⟩,
          tasksFetch := fun _ => ⟨true, some ⟨200, some [sampleTask]⟩⟩ } "http://a"
      = gatherTasks
        { statusFetch := fun _ => ⟨true, some ⟨200, some sampleStatusDoc⟩⟩,
          tasksFetch := fun _ => ⟨true, some ⟨200, some [sampleTask]⟩⟩ } "http://a" :=
  (gatherTasks_uses_tasks_url "http://a"
      { statusFetch := fun _ => ⟨true, none⟩,
        tasksFetch := fun _ => ⟨true, some ⟨200, some [sampleTask]⟩⟩ }
      { statusFetch := fun _ => ⟨true, some ⟨200, some sampleStatusDoc⟩⟩,
        tasksFetch := fun _ => ⟨true, some ⟨200, some [sampleTask]⟩⟩ } rfl).1

/-- C8: for a successfully fetched status document `gatherStatus` emits
exactly one `ereb_status` record; its `running` field is the active value 1
exactly when the document's state is `"running"` (and 0 for every other
state), its `tasks_queue_length` is the length of the document's
`next_tasks` list, and its `next_run_in` is the document's `next_run`
unchanged. -/
theorem gatherStatus_fields (serverAddr : String) (doc : ErebStatus) (g : World)
    (h : g.statusFetch (serverAddr ++ "/status") = ⟨true, some ⟨200, some doc⟩⟩) :
    ∃ m : Metric,
      gatherStatus g serverAddr = Except.ok [m]
      ∧ m.measurement = "ereb_status"
      ∧ (fieldOf m "running" = some (FieldValue.int 1) ↔ doc.state = "running")
      ∧ (doc.state ≠ "running" → fieldOf m "running" = some (FieldValue.int 0))
      ∧ fieldOf m "tasks_queue_length" = some (FieldValue.int doc.nextTasks.length)
      ∧ fieldOf m "next_run_in" = some (FieldValue.float doc.nextRun) := by
  refine ⟨{ measurement := "ereb_status",
            tags := [("hostname", urlHost serverAddr)],
            fields := statusFields doc }, ?_, rfl, ?_, ?_, ?_, ?_⟩
  · simp [gatherStatus, getJson, h]
  · by_cases hst : doc.state = "running" <;>
      simp [fieldOf, statusFields, hst, List.lookup]
  · intro hst
    simp [fieldOf, statusFields, hst, List.lookup]
  · simp [fieldOf, statusFields, List.lookup]
  · simp [fieldOf, statusFields, List.lookup]

/-- C8 witness. -/
theorem gatherStatus_fields_witness :
    ∃ m : Metric,
      gatherStatus
          { statusFetch := fun _ => ⟨true, some ⟨200, some sampleStatusDoc⟩⟩,
            tasksFetch := fun _ => ⟨true, none⟩ } "http://a"
        = Except.ok [m]
      ∧ m.measurement = "ereb_status"
      ∧ (fieldOf m "running" = some (FieldValue.int 1) ↔ sampleStatusDoc.state = "running")
      ∧ (sampleStatusDoc.state ≠ "running" → fieldOf m "running" = some (FieldValue.int 0))
      ∧ fieldOf m "tasks_queue_length" =
          some (FieldValue.int sampleStatusDoc.nextTasks.length)
      ∧ fieldOf m "next_run_in" = some (FieldValue.float sampleStatusDoc.nextRun) :=
  gatherStatus_fields "http://a" sampleStatusDoc
    { statusFetch := fun _ => ⟨true, some ⟨200, some sampleStatusDoc⟩⟩,
      tasksFetch := fun _ => ⟨true, none⟩ } rfl

theorem string_append_right_cancel (s t u : String) (h : s ++ u = t ++ u) : s = t := by
  have hd : s.data ++ u.data = t.data ++ u.data := by
    rw [← String.data_append, ← String.data_append, h]
  have hst : s.data = t.data := List.append_cancel_right hd
  cases s
  cases t
  exact congrArg String.mk (by simpa using hst)

/-- Worlds used by the coordinator witnesses: one where every GET gets a
connection failure for its `/status` document, and one that additionally
serves `http://a/status` successfully. -/
def failStatusWorld : World :=
  { statusFetch := fun _ => ⟨true, none⟩,
    tasksFetch := fun _ => ⟨true, some ⟨200, some [sampleTask]⟩⟩ }

def fixedStatusWorld : World :=
  { statusFetch := fun u =>
      if u = "http://a" ++ "/status" then ⟨true, some ⟨200, some sampleStatusDoc⟩⟩
      else ⟨true, none⟩,
    tasksFetch := fun _ => ⟨true, some ⟨200, some [sampleTask]⟩⟩ }

theorem failStatus_agree :
    ∀ q, q ≠ ("http://a", GatherKind.status) →
      fetchAgrees failStatusWorld fixedStatusWorld q := by
  intro q hne
  obtain ⟨s, k⟩ := q
  cases k
  · have hs : s ≠ "http://a" := by
      intro hc
      exact hne (by rw [hc])
    have happ : s ++ "/status" ≠ "http://a" ++ "/status" := by
      intro hc
      exact hs (string_append_right_cancel _ _ _ hc)
    show failStatusWorld.statusFetch (s ++ "/status")
        = fixedStatusWorld.statusFetch (s ++ "/status")
    simp only [failStatusWorld, fixedStatusWorld, if_neg happ]
  · rfl

theorem map_flatMap_aux {α β γ : Type} (l : List α) (f : α → β) (ext : β → List γ) :
    (l.map f).flatMap ext = l.flatMap (fun a => ext (f a)) := by
  induction l with
  | nil => rfl
  | cons a t ih => simp [ih]

/-- C3: the coordinator's result: `Gather` itself returns no error; when the
unit of a pair fails, its error is in the accumulated error list; every
other pair's unit computes the same result against a world in which the
failing pair would have succeeded (units only read their own fetch); and the
accumulated metrics are exactly the concatenation of the per-unit records. -/
theorem gather_error_isolation (servers : List String) (g g' : World)
    (p : String × GatherKind)
    (hagree : ∀ q, q ≠ p → fetchAgrees g g' q) :
    (Gather servers g).returned = none
    ∧ (∀ e, runUnit g p.1 p.2 = Except.error e →
        p ∈ gatherUnits (gatherEndpoints servers) → e ∈ (Gather servers g).errors)
    ∧ (∀ q, q ∈ gatherUnits (gatherEndpoints servers) → q ≠ p →
        runUnit g q.1 q.2 = runUnit g' q.1 q.2)
    ∧ (Gather servers g).metrics =
        (gatherUnits (gatherEndpoints servers)).flatMap
          (fun u => match runUnit g u.1 u.2 with
                    | Except.ok ms => ms
                    | Except.error _ => []) := by
  refine ⟨rfl, ?_, ?_, ?_⟩
  · intro e he hp
    have hmem : runUnit g p.1 p.2 ∈
        (gatherUnits (gatherEndpoints servers)).map (fun u => runUnit g u.1 u.2) :=
      List.mem_map_of_mem _ hp
    exact List.mem_filterMap.mpr ⟨runUnit g p.1 p.2, hmem, by rw [he]⟩
  · intro q hq hne
    have hag := hagree q hne
    obtain ⟨s, k⟩ := q
    cases k
    · exact gatherStatus_congr g g' s hag
    · exact gatherTasks_congr g g' s hag
  · exact map_flatMap_aux _ _ _

/-- C3 witness: with `http://a`'s status unit failing (connection error) and
its repaired sibling world, the error lands in the accumulated errors. -/
theorem gather_error_isolation_witness :
    GetJsonError.connectionError ("http://a" ++ "/status")
      ∈ (Gather ["http://a"] failStatusWorld).errors :=
  (gather_error_isolation ["http://a"] failStatusWorld fixedStatusWorld
      ("http://a", GatherKind.status) failStatus_agree).2.1
    (GetJsonError.connectionError ("http://a" ++ "/status")) rfl (by decide)

theorem gatherUnits_length (es : List String) :
    (gatherUnits es).length = 2 * es.length := by
  induction es with
  | nil => rfl
  | cons a t ih =>
    have hcons : gatherUnits (a :: t)
        = (a, GatherKind.status) :: (a, GatherKind.tasks) :: gatherUnits t := rfl
    rw [hcons]
    simp only [List.length_cons, ih, List.length_cons]
    omega

theorem gatherUnits_count (es : List String) (s : String) (k : GatherKind) :
    (gatherUnits es).count (s, k) = es.count s := by
  induction es with
  | nil => rfl
  | cons a t ih =>
    have hcons : gatherUnits (a :: t)
        = (a, GatherKind.status) :: (a, GatherKind.tasks) :: gatherUnits t := rfl
    rw [hcons]
    by_cases hs : a = s
    · subst hs
      cases k <;>
        simp [List.count_cons, ih, Prod.ext_iff]
    · cases k <;>
        simp [List.count_cons, ih, Prod.ext_iff, hs]

/-- C9: `Gather` launches one unit per (endpoint, gather function) pair —
2×K units over K effective endpoints, each pair occurring exactly as often
as its endpoint — and its result reflects every unit's outcome: each
successful unit's records are all in the accumulated metrics and each failed
unit's error is in the accumulated errors (the WaitGroup barrier: no unit's
outcome is dropped). -/
theorem Gather_unit_fanout (servers : List String) (g : World) :
    (gatherUnits (gatherEndpoints servers)).length = 2 * (gatherEndpoints servers).length
    ∧ (∀ (s : String) (k : GatherKind),
        (gatherUnits (gatherEndpoints servers)).count (s, k)
          = (gatherEndpoints servers).count s)
    ∧ (∀ q, q ∈ gatherUnits (gatherEndpoints servers) →
        match runUnit g q.1 q.2 with
        | Except.ok ms => ∀ m ∈ ms, m ∈ (Gather servers g).metrics
        | Except.error e => e ∈ (Gather servers g).errors) := by
  refine ⟨gatherUnits_length _, fun s k => gatherUnits_count _ s k, ?_⟩
  intro q hq
  have hmem : runUnit g q.1 q.2 ∈
      (gatherUnits (gatherEndpoints servers)).map (fun u => runUnit g u.1 u.2) :=
    List.mem_map_of_mem _ hq
  split
  case h_1 ms heq =>
    intro m hm
    refine List.mem_flatMap.mpr ⟨runUnit g q.1 q.2, hmem, ?_⟩
    rw [heq]
    exact hm
  case h_2 e heq =>
    exact List.mem_filterMap.mpr ⟨runUnit g q.1 q.2, hmem, by rw [heq]⟩

/-- A world where every request gets a connection failure. -/
def downWorld : World :=
  { statusFetch := fun _ => ⟨true, none⟩, tasksFetch := fun _ => ⟨true, none⟩ }

/-- C9 witness. -/
theorem Gather_unit_fanout_witness :
    GetJsonError.connectionError ("http://a" ++ "/status")
      ∈ (Gather ["http://a"] downWorld).errors :=
  (Gather_unit_fanout ["http://a"] downWorld).2.2
    ("http://a", GatherKind.status) (by decide)

theorem trimRight_slash_preserves_http (e : String)
    (h : goHasPrefix e "http" = true) :
    goHasPrefix (goTrimRight e "/") "http" = true := by
  have hd : ("http" : String).data = ['h', 't', 't', 'p'] := by decide
  have hlen4 : ("http" : String).data.length = 4 := by rw [hd]; rfl
  simp only [goHasPrefix, hlen4, hd, beq_iff_eq] at h
  have hsplit : e.data = ['h', 't', 't', 'p'] ++ e.data.drop 4 := by
    rw [← h]
    exact (List.take_append_drop 4 e.data).symm
  simp only [goHasPrefix, goTrimRight, hlen4, hd, beq_iff_eq]
  rw [hsplit, List.reverse_append, List.dropWhile_append]
  split
  case isTrue =>
    decide
  case isFalse =>
    rw [List.reverse_append, List.reverse_reverse]
    have h4 : 4 = (['h', 't', 't', 'p'] : List Char).length := rfl
    rw [h4, List.take_left]

theorem mem_gatherEndpoints_scheme (servers : List String) :
    ∀ x ∈ gatherEndpoints servers, goHasPrefix x "http" = true := by
  intro x hx
  simp only [gatherEndpoints] at hx
  obtain ⟨e, _, hfe⟩ := List.mem_filterMap.mp hx
  by_cases hpre : goHasPrefix e "http" = true
  · rw [if_pos hpre] at hfe
    by_cases hsuf : goHasSuffix e "/" = true
    · rw [if_pos hsuf] at hfe
      obtain rfl : goTrimRight e "/" = x := Option.some.inj hfe
      exact trimRight_slash_preserves_http e hpre
    · rw [if_neg hsuf] at hfe
      obtain rfl : e = x := Option.some.inj hfe
      exact hpre
  · rw [if_neg hpre] at hfe
    exact absurd hfe (by simp)

/-- Spec-side notion for claim C4: an endpoint begins with an HTTP scheme,
per the spec's words that endpoints "must have an `http`/`https` scheme". -/
def beginsWithHttpScheme (s : String) : Bool :=
  goHasPrefix s "http://" || goHasPrefix s "https://"

/-- C4 (counterexample): the configured entry `"httpserver.com:8888"` does
not begin with an HTTP scheme, yet the code's `strings.HasPrefix(endpoint,
"http")` test keeps it in the effective endpoint set instead of dropping
it. -/
theorem gatherEndpoints_scheme_counterexample :
    beginsWithHttpScheme "httpserver.com:8888" = false
    ∧ "httpserver.com:8888" ∈ gatherEndpoints ["httpserver.com:8888"] := by
  decide

/-- C4 (amended): `Gather`'s endpoint normalization: an empty configured
list becomes exactly `["http://localhost:8888"]`; an entry that does not
begin with the literal text `"http"` never reaches the effective endpoint
set; and a trailing slash is stripped, making `"http://host:8888/"` and
`"http://host:8888"` yield identical endpoint sets. -/
theorem Gather_normalizes_endpoints (servers : List String) (e : String)
    (h : goHasPrefix e "http" = false) :
    gatherEndpoints [] = ["http://localhost:8888"]
    ∧ e ∉ gatherEndpoints servers
    ∧ gatherEndpoints ["http://host:8888/"] = gatherEndpoints ["http://host:8888"] := by
  refine ⟨by decide, ?_, by decide⟩
  intro hmem
  have hx := mem_gatherEndpoints_scheme servers e hmem
  rw [h] at hx
  exact Bool.false_ne_true hx

/-- C4 witness: the schemeless entry `"host:8888"` is dropped. -/
theorem Gather_normalizes_endpoints_witness :
    gatherEndpoints [] = ["http://localhost:8888"]
    ∧ "host:8888" ∉ gatherEndpoints ["host:8888"]
    ∧ gatherEndpoints ["http://host:8888/"] = gatherEndpoints ["http://host:8888"] :=
  Gather_normalizes_endpoints ["host:8888"] "host:8888" (by decide)

end Ereb
